import Mathlib

/-!
# Verification of the MF4/BLF data-analysis core (`src/utils/dataSimulator.ts`)

A shallow embedding of the deterministic signal-discovery and synthesis
engine.  JavaScript numbers are modelled as exact rationals (`ℚ`); the
transcendental primitives `Math.sin`, `Math.cos`, `Math.exp`, `Math.sqrt`
are kept abstract as an oracle structure, so every theorem that needs a
fact about them states it as an explicit hypothesis.  Machine integers
appear only in the string hash (32-bit wraparound, modelled with explicit
`% 2^32`) and the PRNG state (a natural number below `233280` after one
step).  All definitions are executable.
-/

namespace DataSim

/-! ## JavaScript numeric primitives -/

/-- `Math.round x` — round half toward positive infinity (ECMA-262). -/
def jsRound (x : ℚ) : ℤ := ⌊x + 1/2⌋

/-- `Number(x.toFixed d)` — round `x` to `d` decimal places, ties toward
positive infinity (ECMA-262 `Number.prototype.toFixed`: of two nearest
candidates, the larger is picked). -/
def jsToFixed (d : ℕ) (x : ℚ) : ℚ := (⌊x * 10 ^ d + 1/2⌋ : ℚ) / 10 ^ d

/-- `ToInt32` (the `|0` coercion): wrap an integer into `[-2^31, 2^31)`. -/
def toInt32 (x : ℤ) : ℤ := (x + 2 ^ 31) % 2 ^ 32 - 2 ^ 31

theorem jsToFixed_le {x B : ℚ} (h : x ≤ B) (d : ℕ) : jsToFixed d x ≤ B + 1/2 := by
  unfold jsToFixed
  have hp : (0:ℚ) < 10 ^ d := by positivity
  have h1 : ((⌊x * 10 ^ d + 1/2⌋ : ℚ)) ≤ x * 10 ^ d + 1/2 := Int.floor_le _
  have h2 : (1:ℚ) ≤ 10 ^ d := one_le_pow₀ (by norm_num)
  rw [div_le_iff₀ hp]
  nlinarith

theorem jsToFixed_ge {x B : ℚ} (h : B ≤ x) (d : ℕ) : B - 1/2 ≤ jsToFixed d x := by
  unfold jsToFixed
  have hp : (0:ℚ) < 10 ^ d := by positivity
  have h1 : x * 10 ^ d + 1/2 - 1 ≤ ((⌊x * 10 ^ d + 1/2⌋ : ℚ)) := by
    have := Int.sub_one_lt_floor (x * 10 ^ d + 1/2)
    linarith
  have h2 : (1:ℚ) ≤ 10 ^ d := one_le_pow₀ (by norm_num)
  rw [le_div_iff₀ hp]
  nlinarith

theorem jsToFixed_abs_sub (d : ℕ) (x : ℚ) :
    |jsToFixed d x - x| ≤ 1/2 * (1 / 10 ^ d) := by
  unfold jsToFixed
  have hp : (0:ℚ) < 10 ^ d := by positivity
  have h1 : ((⌊x * 10 ^ d + 1/2⌋ : ℚ)) ≤ x * 10 ^ d + 1/2 := Int.floor_le _
  have h2 : x * 10 ^ d + 1/2 - 1 < ((⌊x * 10 ^ d + 1/2⌋ : ℚ)) :=
    Int.sub_one_lt_floor _
  have heq : ((⌊x * 10 ^ d + 1/2⌋ : ℚ)) / 10 ^ d - x =
      (((⌊x * 10 ^ d + 1/2⌋ : ℚ)) - x * 10 ^ d) / 10 ^ d := by
    field_simp
    ring
  rw [heq, abs_div, abs_of_pos hp, div_le_iff₀ hp]
  have h3 : (1:ℚ)/2 * (1 / 10 ^ d) * 10 ^ d = 1/2 := by
    field_simp
    ring
  rw [h3, abs_le]
  constructor <;> linarith

theorem jsRound_abs_sub (x : ℚ) : |(jsRound x : ℚ) - x| ≤ 1/2 := by
  unfold jsRound
  have h1 : ((⌊x + 1/2⌋ : ℚ)) ≤ x + 1/2 := Int.floor_le _
  have h2 : x + 1/2 - 1 < ((⌊x + 1/2⌋ : ℚ)) := Int.sub_one_lt_floor _
  rw [abs_le]
  constructor <;> linarith

/-! ## The seeded PRNG (`SeededRandom`, dataSimulator.ts lines 25-38)

The JavaScript class holds a mutable numeric `seed`; every generator in the
program is constructed from a nonnegative integer (the absolute value of a
32-bit string hash, or the literal `12345`), and after one step the state is
always in `[0, 233280)`, so the state is modelled as `ℕ` and the mutation as
explicit state passing. -/

/-- `next()`: `seed = (seed * 9301 + 49297) % 233280; return seed / 233280`.
Returns the new state together with the produced value. -/
def srNext (seed : ℕ) : ℕ × ℚ :=
  let s := (seed * 9301 + 49297) % 233280
  (s, (s : ℚ) / 233280)

/-- `range(min, max)`: `min + next() * (max - min)`. -/
def srRange (seed : ℕ) (mn mx : ℚ) : ℕ × ℚ :=
  let n := srNext seed
  (n.1, mn + n.2 * (mx - mn))

theorem srNext_nonneg (seed : ℕ) : 0 ≤ (srNext seed).2 := by
  unfold srNext
  positivity

theorem srNext_lt_one (seed : ℕ) : (srNext seed).2 < 1 := by
  unfold srNext
  simp only
  rw [div_lt_one (by norm_num)]
  exact_mod_cast Nat.mod_lt _ (by norm_num)

/-! ## The string hash (`hashCode`, dataSimulator.ts lines 12-20)

`hash = (hash << 5) - hash + charCode; hash |= 0` — the shift is itself a
32-bit operation, so each step is `toInt32 (toInt32 (h * 32) - h + c)`;
`Math.abs` of the final 32-bit value is the seed. -/

def hashStep (h : ℤ) (c : ℕ) : ℤ := toInt32 (toInt32 (h * 32) - h + c)

/-- `hashCode(str)`: fold over the UTF-16 code units (ASCII here, so the
char codes coincide with Unicode code points) and take the absolute value. -/
def hashCode (s : String) : ℕ :=
  (s.data.foldl (fun h c => hashStep h c.toNat) 0).natAbs

/-! ## String primitives used by the classifier and parsers -/

/-- `hay.startsWith needle` on character lists. -/
def listStartsWith : List Char → List Char → Bool
  | _, [] => true
  | [], _ :: _ => false
  | a :: as, b :: bs => a == b && listStartsWith as bs

/-- Substring containment on character lists (JS `String.prototype.includes`). -/
def listIncludes : List Char → List Char → Bool
  | [], pat => pat.isEmpty
  | l@(_ :: rest), pat => listStartsWith l pat || listIncludes rest pat

/-- JS `s.includes(pat)`. -/
def strIncludes (s pat : String) : Bool := listIncludes s.data pat.data

/-- JS `s.toLowerCase()` (the names in this program are ASCII). -/
def strLower (s : String) : String := ⟨s.data.map Char.toLower⟩

/-! ## The transcendental oracle

`Math.sin`, `Math.cos`, `Math.exp`, `Math.sqrt` are opaque real-valued
primitives; in the rational model they are carried as an explicit function
record, and each theorem assumes exactly the analytic facts it needs. -/

structure Oracle where
  sin : ℚ → ℚ
  cos : ℚ → ℚ
  exp : ℚ → ℚ
  sqrt : ℚ → ℚ

/-- A concrete oracle used to instantiate closed statements. -/
def oracle0 : Oracle := ⟨fun _ => 0, fun _ => 0, fun _ => 0, fun x => x⟩

/-! ## Simulation constants (dataSimulator.ts lines 40-43) -/

def SIMULATION_DURATION : ℚ := 600

def SAMPLING_RATE : ℚ := 1/10

/-- `SIMULATION_DURATION / SAMPLING_RATE` — the quotient is exactly 6000. -/
def TOTAL_POINTS : ℕ := 6000

theorem TOTAL_POINTS_eq : (TOTAL_POINTS : ℚ) = SIMULATION_DURATION / SAMPLING_RATE := by
  norm_num [TOTAL_POINTS, SIMULATION_DURATION, SAMPLING_RATE]

/-! ## The drive-cycle simulator (`generateDriveCycle`, lines 60-190) -/

inductive DriveMode
  | IDLE
  | ACCEL
  | CRUISE
  | DECEL
deriving DecidableEq

/-- The mutable loop variables of `generateDriveCycle`. -/
structure DCState where
  speed : ℚ
  target : ℚ
  timer : ℚ
  steering : ℚ
  mode : DriveMode
  seed : ℕ
deriving DecidableEq

/-- One sample pushed onto the nine parallel arrays. -/
structure DCRow where
  speed : ℚ
  rpm : ℚ
  throttle : ℚ
  brake : ℚ
  gear : ℚ
  load : ℚ
  steering : ℚ
  wipers : ℚ
  lights : ℚ
deriving DecidableEq

structure DriveCycle where
  speed : List ℚ
  rpm : List ℚ
  throttle : List ℚ
  brake : List ℚ
  gear : List ℚ
  load : List ℚ
  steering : List ℚ
  wipers : List ℚ
  lights : List ℚ
deriving DecidableEq

/-- The state machine block (lines 81-105).  Note the extra unused
`const rand = rng.next()` draw at line 82, which still advances the
generator. -/
def dcTransition (st : DCState) : DCState :=
  if st.timer ≤ 0 then
    let s0 := (srNext st.seed).1
    match st.mode with
    | .IDLE =>
        let n1 := srNext s0
        let n2 := srNext n1.1
        { st with mode := .ACCEL, timer := 100 + n1.2 * 200,
                  target := 30 + n2.2 * 100, seed := n2.1 }
    | .ACCEL =>
        let n1 := srNext s0
        { st with mode := .CRUISE, timer := 100 + n1.2 * 400, seed := n1.1 }
    | .CRUISE =>
        let n1 := srNext s0
        if n1.2 > 1/2 then
          let n2 := srNext n1.1
          { st with mode := .DECEL, timer := 50 + n2.2 * 100, target := 0,
                    seed := n2.1 }
        else
          let n2 := srNext n1.1
          let n3 := srNext n2.1
          { st with mode := .ACCEL, timer := 50 + n2.2 * 100,
                    target := 30 + n3.2 * 100, seed := n3.1 }
    | .DECEL =>
        let n1 := srNext s0
        { st with mode := .IDLE, timer := 50 + n1.2 * 100, target := 0,
                  seed := n1.1 }
  else st

/-- Per-step acceleration (lines 109-122); in `IDLE` the speed is forced
to 0 before integration, which `dcSpeedUpdate` reproduces. -/
def dcAccel (o : Oracle) (i : ℕ) (mode : DriveMode) (target speed : ℚ) : ℚ :=
  match mode with
  | .ACCEL => min ((target - speed) * (5/100)) 2
  | .DECEL => max ((target - speed) * (8/100)) (-(7/2))
  | .CRUISE => (target - speed) * (2/100) + o.sin ((i : ℚ) / 50) * (1/10)
  | .IDLE => 0

/-- `currentSpeed += accel * SAMPLING_RATE * 3.6; if (< 0) = 0` (124-125). -/
def dcSpeedUpdate (mode : DriveMode) (speed accel : ℚ) : ℚ :=
  let base : ℚ := match mode with | .IDLE => 0 | _ => speed
  let s1 := base + accel * (SAMPLING_RATE * (36/10))
  if s1 < 0 then 0 else s1

/-- Steering random walk with decay and ±540 clamp (127-137); returns the
new generator state and steering angle. -/
def dcSteering (seed : ℕ) (speed steering : ℚ) : ℕ × ℚ :=
  let (s, st1) :=
    if speed > 5 then
      let n := srNext seed
      (n.1, (steering + (n.2 - 1/2) * 2) * (98/100))
    else (seed, 0)
  let st2 := if st1 > 540 then 540 else st1
  (s, if st2 < -540 then -540 else st2)

/-- Throttle / brake / load as functions of the acceleration (140-153). -/
def dcThrottle (accel : ℚ) : ℚ :=
  if accel > 1/10 then min (accel * 30) 100 else 0

def dcBrake (accel : ℚ) : ℚ :=
  if accel > 1/10 then 0
  else if accel < -(1/10) then min (|accel| * 25) 100 else 0

def dcLoad (accel speed : ℚ) : ℚ :=
  if accel > 1/10 then dcThrottle accel
  else if accel < -(1/10) then 0 else speed * (1/10)

/-- The sequential gear reassignments of lines 156-162, written with the
same shadowing order as the source. -/
def dcGear (speed : ℚ) : ℚ :=
  let g : ℚ := 1
  let g := if speed > 15 then 2 else g
  let g := if speed > 35 then 3 else g
  let g := if speed > 55 then 4 else g
  let g := if speed > 85 then 5 else g
  let g := if speed > 120 then 6 else g
  if speed = 0 then 0 else g

/-- RPM logic (lines 164-174); the gear-0 branch draws from the generator. -/
def dcRpm (o : Oracle) (i : ℕ) (gear speed accel throttle : ℚ) (seed : ℕ) :
    ℕ × ℚ :=
  if gear > 0 then
    let r0 := speed / gear * 220
    let r1 := if r0 < 800 then 800 else r0
    (seed, if accel > 1 then r1 + 300 else r1)
  else
    let n := srNext seed
    let r0 := 800 + o.sin ((i : ℚ) / 10) * 20 + (n.2 - 1/2) * 20
    (n.1, if throttle > 0 then r0 + throttle * 40 else r0)

/-- One iteration of the `generateDriveCycle` loop body (lines 79-187). -/
def dcStep (o : Oracle) (i : ℕ) (st0 : DCState) : DCState × DCRow :=
  let st1 := dcTransition st0
  let st1 := { st1 with timer := st1.timer - 1 }
  let accel := dcAccel o i st1.mode st1.target st1.speed
  let speed := dcSpeedUpdate st1.mode st1.speed accel
  let sr := dcSteering st1.seed speed st1.steering
  let currThrottle := dcThrottle accel
  let currGear := dcGear speed
  let rp := dcRpm o i currGear speed accel currThrottle sr.1
  let row : DCRow :=
    { speed := jsToFixed 2 speed
      rpm := jsToFixed 0 rp.2
      throttle := jsToFixed 1 currThrottle
      brake := jsToFixed 1 (dcBrake accel)
      gear := currGear
      load := jsToFixed 1 (dcLoad accel speed)
      steering := jsToFixed 1 sr.2
      wipers := if 2000 < i ∧ i < 2500 then 1 else 0
      lights := if 5000 < i then 1 else 0 }
  ({ st1 with speed := speed, steering := sr.2, seed := rp.1 }, row)

/-- Run the loop for `fuel` iterations starting at index `i`. -/
def dcRun (o : Oracle) : ℕ → ℕ → DCState → List DCRow
  | 0, _, _ => []
  | fuel + 1, i, st =>
      let sr := dcStep o i st
      sr.2 :: dcRun o fuel (i + 1) sr.1

/-- Initial loop variables (lines 71-77): seed 12345, everything at rest. -/
def dcInit : DCState :=
  { speed := 0, target := 0, timer := 0, steering := 0, mode := .IDLE,
    seed := 12345 }

/-- `generateDriveCycle()`: the nine parallel arrays of one full run. -/
def generateDriveCycle (o : Oracle) : DriveCycle :=
  let rows := dcRun o TOTAL_POINTS 0 dcInit
  { speed := rows.map (·.speed)
    rpm := rows.map (·.rpm)
    throttle := rows.map (·.throttle)
    brake := rows.map (·.brake)
    gear := rows.map (·.gear)
    load := rows.map (·.load)
    steering := rows.map (·.steering)
    wipers := rows.map (·.wipers)
    lights := rows.map (·.lights) }

/-! ## Bounds for the drive cycle -/

theorem jsToFixed_nonneg {x : ℚ} (h : 0 ≤ x) (d : ℕ) : 0 ≤ jsToFixed d x := by
  unfold jsToFixed
  have hp : (0:ℚ) < 10 ^ d := by positivity
  have : (0:ℤ) ≤ ⌊x * 10 ^ d + 1/2⌋ := by
    apply Int.floor_nonneg.mpr
    positivity
  positivity

theorem targetExpr_bounds (s : ℕ) :
    0 ≤ 30 + (srNext s).2 * 100 ∧ 30 + (srNext s).2 * 100 ≤ 130 := by
  have h1 := srNext_nonneg s
  have h2 := srNext_lt_one s
  constructor <;> nlinarith

theorem dcTransition_speed (st : DCState) : (dcTransition st).speed = st.speed := by
  obtain ⟨v, t, tm, sg, m, sd⟩ := st
  cases m <;> simp only [dcTransition] <;> split_ifs <;> rfl

theorem dcTransition_target_bounds (st : DCState)
    (h2 : 0 ≤ st.target) (h3 : st.target ≤ 130) :
    0 ≤ (dcTransition st).target ∧ (dcTransition st).target ≤ 130 := by
  obtain ⟨v, t, tm, sg, m, sd⟩ := st
  simp only at h2 h3
  cases m <;> simp only [dcTransition] <;> split_ifs <;>
    first
      | exact ⟨h2, h3⟩
      | exact targetExpr_bounds _
      | exact ⟨le_rfl, by norm_num⟩

theorem dcNewSpeed_bounds (o : Oracle) (i : ℕ) (mode : DriveMode)
    (target speed : ℚ) (hsin : ∀ x, |o.sin x| ≤ 1)
    (h0 : 0 ≤ speed) (h1 : speed ≤ 136) (h2 : 0 ≤ target) (h3 : target ≤ 130) :
    0 ≤ dcSpeedUpdate mode speed (dcAccel o i mode target speed) ∧
      dcSpeedUpdate mode speed (dcAccel o i mode target speed) ≤ 136 := by
  obtain ⟨hsl, hsu⟩ := abs_le.mp (hsin ((i : ℚ) / 50))
  cases mode <;>
    simp only [dcAccel, dcSpeedUpdate, SAMPLING_RATE] <;> split_ifs with hneg <;>
    constructor
  -- IDLE
  · norm_num
  · norm_num
  · norm_num
  · norm_num
  -- ACCEL
  · norm_num
  · norm_num
  · linarith
  · have hm : min ((target - speed) * (5/100)) 2 ≤ (target - speed) * (5/100) :=
      min_le_left _ _
    nlinarith
  -- CRUISE
  · norm_num
  · norm_num
  · linarith
  · nlinarith
  -- DECEL
  · norm_num
  · norm_num
  · linarith
  · have hm : max ((target - speed) * (8/100)) (-(7/2)) ≤
        max ((target - speed) * (8/100)) 0 :=
      max_le_max le_rfl (by norm_num)
    rcases le_total ((target - speed) * (8/100)) 0 with hx | hx
    · rw [max_eq_right hx] at hm
      nlinarith
    · rw [max_eq_left hx] at hm
      nlinarith

theorem dcThrottle_bounds (a : ℚ) : 0 ≤ dcThrottle a ∧ dcThrottle a ≤ 100 := by
  unfold dcThrottle
  split_ifs with h
  · exact ⟨le_min (by nlinarith) (by norm_num), min_le_right _ _⟩
  · norm_num

theorem dcGear_cases (v : ℚ) : ∃ n : ℕ, dcGear v = (n : ℚ) ∧ n ≤ 6 := by
  simp only [dcGear]
  split_ifs <;>
    first
      | (refine ⟨0, ?_, ?_⟩ <;> norm_num <;> done)
      | (refine ⟨1, ?_, ?_⟩ <;> norm_num <;> done)
      | (refine ⟨2, ?_, ?_⟩ <;> norm_num <;> done)
      | (refine ⟨3, ?_, ?_⟩ <;> norm_num <;> done)
      | (refine ⟨4, ?_, ?_⟩ <;> norm_num <;> done)
      | (refine ⟨5, ?_, ?_⟩ <;> norm_num <;> done)
      | (refine ⟨6, ?_, ?_⟩ <;> norm_num <;> done)

set_option maxHeartbeats 1600000 in
theorem dcRpm_bounds (o : Oracle) (i : ℕ) (v accel throttle : ℚ) (seed : ℕ)
    (hsin : ∀ x, |o.sin x| ≤ 1) (h0 : 0 ≤ v) (h1 : v ≤ 136)
    (ht0 : 0 ≤ throttle) (ht1 : throttle ≤ 100) :
    770 ≤ (dcRpm o i (dcGear v) v accel throttle seed).2 ∧
      (dcRpm o i (dcGear v) v accel throttle seed).2 ≤ 5580 := by
  obtain ⟨hsl, hsu⟩ := abs_le.mp (hsin ((i : ℚ) / 10))
  have hr0 := srNext_nonneg seed
  have hr1 := srNext_lt_one seed
  simp only [dcGear, dcRpm]
  split_ifs <;> dsimp only <;> refine ⟨by linarith, by linarith⟩

/-- Loop invariant of `generateDriveCycle`: the integrated speed stays in
`[0, 136]` (well inside the claimed 240) and the target in `[0, 130]`. -/
def DCInv (st : DCState) : Prop :=
  0 ≤ st.speed ∧ st.speed ≤ 136 ∧ 0 ≤ st.target ∧ st.target ≤ 130

/-- The per-sample bounds claimed for the drive cycle. -/
def rowOK (r : DCRow) : Prop :=
  (0 ≤ r.speed ∧ r.speed ≤ 240) ∧ (600 ≤ r.rpm ∧ r.rpm ≤ 7000) ∧
    (∃ n : ℕ, r.gear = (n : ℚ) ∧ n ≤ 6)

theorem dcStep_inv (o : Oracle) (hsin : ∀ x, |o.sin x| ≤ 1) (i : ℕ)
    (st : DCState) (h : DCInv st) :
    DCInv (dcStep o i st).1 ∧ rowOK (dcStep o i st).2 := by
  obtain ⟨h0, h1, h2, h3⟩ := h
  have hts : (dcTransition st).speed = st.speed := dcTransition_speed st
  obtain ⟨ht0, ht1⟩ := dcTransition_target_bounds st h2 h3
  obtain ⟨hv0, hv1⟩ := dcNewSpeed_bounds o i (dcTransition st).mode
    (dcTransition st).target (dcTransition st).speed hsin
    (hts ▸ h0) (hts ▸ h1) ht0 ht1
  obtain ⟨hth0, hth1⟩ := dcThrottle_bounds
    (dcAccel o i (dcTransition st).mode (dcTransition st).target
      (dcTransition st).speed)
  obtain ⟨hrpm0, hrpm1⟩ := dcRpm_bounds o i
    (dcSpeedUpdate (dcTransition st).mode (dcTransition st).speed
      (dcAccel o i (dcTransition st).mode (dcTransition st).target
        (dcTransition st).speed))
    (dcAccel o i (dcTransition st).mode (dcTransition st).target
      (dcTransition st).speed)
    (dcThrottle (dcAccel o i (dcTransition st).mode (dcTransition st).target
      (dcTransition st).speed))
    (dcSteering (dcTransition st).seed
      (dcSpeedUpdate (dcTransition st).mode (dcTransition st).speed
        (dcAccel o i (dcTransition st).mode (dcTransition st).target
          (dcTransition st).speed))
      (dcTransition st).steering).1
    hsin hv0 hv1 hth0 hth1
  simp only [dcStep, DCInv, rowOK]
  refine ⟨⟨hv0, hv1, ht0, ht1⟩,
    ⟨jsToFixed_nonneg hv0 2, by have := jsToFixed_le hv1 2; linarith⟩,
    ⟨by have := jsToFixed_ge hrpm0 0; linarith,
     by have := jsToFixed_le hrpm1 0; linarith⟩,
    dcGear_cases _⟩

theorem dcRun_rowOK (o : Oracle) (hsin : ∀ x, |o.sin x| ≤ 1) :
    ∀ (fuel i : ℕ) (st : DCState), DCInv st →
      ∀ r ∈ dcRun o fuel i st, rowOK r := by
  intro fuel
  induction fuel with
  | zero =>
      intro i st _ r hr
      simp [dcRun] at hr
  | succ n ih =>
      intro i st h r hr
      simp only [dcRun, List.mem_cons] at hr
      obtain ⟨hinv, hrow⟩ := dcStep_inv o hsin i st h
      rcases hr with rfl | hr
      · exact hrow
      · exact ih (i + 1) _ hinv r hr

/-- C4: Drive-cycle channel bounds — every generated speed sample lies in
`[0, 240]`, every RPM sample in `[600, 7000]`, and every gear sample is a
natural number at most 6, assuming only that `Math.sin` is bounded by 1 in
absolute value. -/
theorem C4_drive_cycle_bounds (o : Oracle) (hsin : ∀ x : ℚ, |o.sin x| ≤ 1) :
    (∀ v ∈ (generateDriveCycle o).speed, 0 ≤ v ∧ v ≤ 240) ∧
    (∀ v ∈ (generateDriveCycle o).rpm, 600 ≤ v ∧ v ≤ 7000) ∧
    (∀ v ∈ (generateDriveCycle o).gear, ∃ n : ℕ, v = (n : ℚ) ∧ n ≤ 6) := by
  have hinit : DCInv dcInit := by norm_num [DCInv, dcInit]
  have hrows := dcRun_rowOK o hsin TOTAL_POINTS 0 dcInit hinit
  refine ⟨?_, ?_, ?_⟩ <;> intro v hv <;>
    simp only [generateDriveCycle, List.mem_map] at hv <;>
    obtain ⟨r, hr, rfl⟩ := hv
  · exact (hrows r hr).1
  · exact (hrows r hr).2.1
  · exact (hrows r hr).2.2

/-- Witness for C4 at the concrete all-zero oracle. -/
theorem C4_drive_cycle_bounds_witness :
    (∀ x : ℚ, |oracle0.sin x| ≤ 1) ∧
    ((∀ v ∈ (generateDriveCycle oracle0).speed, 0 ≤ v ∧ v ≤ 240) ∧
     (∀ v ∈ (generateDriveCycle oracle0).rpm, 600 ≤ v ∧ v ≤ 7000) ∧
     (∀ v ∈ (generateDriveCycle oracle0).gear, ∃ n : ℕ, v = (n : ℚ) ∧ n ≤ 6)) :=
  ⟨fun x => by norm_num [oracle0],
   C4_drive_cycle_bounds oracle0 (fun x => by norm_num [oracle0])⟩

/-- C9: PRNG output range — for every nonnegative integer state (as all
generator states in the program are), `next()` updates the state to
`(seed*9301 + 49297) % 233280`, returns that state divided by 233280,
which lies in `[0,1)`, and `range(min,max)` returns
`min + next()*(max-min)` together with the updated state. -/
theorem C9_prng_range :
    ∀ seed : ℕ,
      (srNext seed).1 = (seed * 9301 + 49297) % 233280 ∧
      (srNext seed).2 = ((srNext seed).1 : ℚ) / 233280 ∧
      0 ≤ (srNext seed).2 ∧ (srNext seed).2 < 1 ∧
      ∀ mn mx : ℚ, srRange seed mn mx =
        ((srNext seed).1, mn + (srNext seed).2 * (mx - mn)) :=
  fun seed =>
    ⟨rfl, rfl, srNext_nonneg seed, srNext_lt_one seed, fun _ _ => rfl⟩

/-! ## Name-based range heuristics (`guessRangeByName`, lines 200-218) -/

structure GuessInfo where
  min : ℚ
  max : ℚ
  unit : String
  factor : ℚ
deriving DecidableEq

def guessRangeByName (name : String) : GuessInfo :=
  let n := strLower name
  if strIncludes n "temp" then ⟨-40, 150, "°C", 1/10⟩
  else if strIncludes n "volt" || strIncludes n "batt" then ⟨0, 18, "V", 1/100⟩
  else if strIncludes n "curr" then ⟨-200, 200, "A", 1/10⟩
  else if strIncludes n "soc" then ⟨0, 100, "%", 1/2⟩
  else if strIncludes n "steer" || strIncludes n "angle" then
    ⟨-720, 720, "deg", 1/10⟩
  else if strIncludes n "yaw" then ⟨-10, 10, "deg/s", 1/100⟩
  else if strIncludes n "torque" then ⟨-100, 500, "Nm", 1/2⟩
  else if strIncludes n "press" then ⟨0, 250, "bar", 1/10⟩
  else if strIncludes n "speed" && !(strIncludes n "rpm") then
    ⟨0, 260, "km/h", 1/100⟩
  else if strIncludes n "rpm" then ⟨0, 10000, "rpm", 1/2⟩
  else if strIncludes n "accel" then ⟨-20, 20, "m/s²", 1/100⟩
  else if strIncludes n "status" || strIncludes n "switch" ||
      strIncludes n "st_" then ⟨0, 3, "", 1⟩
  else if strIncludes n "cnt" || strIncludes n "counter" then ⟨0, 15, "", 1⟩
  else ⟨0, 100, "-", 1⟩

/-! ## The signal synthesizer (`generateSmartSignal`, lines 223-385) -/

structure EffConfig where
  min : ℚ
  max : ℚ
  factor : ℚ
deriving DecidableEq

/-- Range determination (lines 234-247): a `[0,0]` range with factor 1 is
the "undeclared" sentinel and is replaced by the name heuristic (which may
also replace a unit factor); every other combination is trusted as-is
(the first branch of the source conditional is deliberately empty). -/
def effConfig (name : String) (dbcMin dbcMax factor : ℚ) : EffConfig :=
  if dbcMin ≥ dbcMax ∧ ¬(dbcMin = 0 ∧ dbcMax = 0 ∧ factor = 1) then
    ⟨dbcMin, dbcMax, factor⟩
  else if dbcMin = 0 ∧ dbcMax = 0 then
    let g := guessRangeByName name
    ⟨g.min, g.max, if factor = 1 ∧ g.factor ≠ 1 then g.factor else factor⟩
  else ⟨dbcMin, dbcMax, factor⟩

/-- Behaviour classification flags (lines 252-265).  `Number.isInteger`
on the rational model is `den = 1`. -/
structure SigClass where
  isTemp : Bool
  isVolt : Bool
  isTorque : Bool
  isSteer : Bool
  isYaw : Bool
  isCounter : Bool
  isPressure : Bool
  isWheelSpeed : Bool
  isState : Bool
deriving DecidableEq

def classify (name : String) (mn mx factor : ℚ) : SigClass :=
  let n := strLower name
  let range := mx - mn
  { isTemp := strIncludes n "temp" || strIncludes n "t_"
    isVolt := strIncludes n "volt" || strIncludes n "ubatt" ||
      strIncludes n "terminal"
    isTorque := strIncludes n "torque" || strIncludes n "moment"
    isSteer := strIncludes n "steer" || strIncludes n "angle"
    isYaw := strIncludes n "yaw"
    isCounter := strIncludes n "cnt" || strIncludes n "count" ||
      strIncludes n "alive" || strIncludes n "heartbeat"
    isPressure := strIncludes n "press" || strIncludes n "p_"
    isWheelSpeed := strIncludes n "wheel" && strIncludes n "speed"
    isState := (decide (factor = 1) && decide (0 < range) &&
        decide (range < 20) && (mn.den == 1) && (mx.den == 1)) ||
      strIncludes n "status" || strIncludes n "state" ||
      strIncludes n "mode" || strIncludes n "switch" }

/-- The mutable loop variables of the generation loop (lines 269-270). -/
structure GenState where
  cur : ℚ
  hold : ℚ
  seed : ℕ
deriving DecidableEq

/-- The per-step raw value before post-processing (lines 272-345), with
the generator state threaded explicitly.  The counter branch's
`Math.floor(i % (limit+1))` is integer modulus of nonnegative integers,
so the outer floor is the identity. -/
def ssValue (o : Oracle) (dc : DriveCycle) (c : SigClass)
    (mn mx range : ℚ) (i : ℕ) (st : GenState) : GenState × ℚ :=
  if c.isCounter then
    let limit : ℤ := if mx > 0 then ⌊mx⌋ else 15
    let m : ℤ := (i : ℤ) % (limit + 1)
    (st, (m : ℚ))
  else if c.isState then
    if st.hold ≤ 0 then
      let n1 := srNext st.seed
      if n1.2 > 7/10 then
        let r := srRange n1.1 mn (mx + 99/100)
        let h := srRange r.1 20 100
        ({ cur := (⌊r.2⌋ : ℚ), hold := h.2, seed := h.1 }, (⌊r.2⌋ : ℚ))
      else
        let h := srRange n1.1 20 100
        ({ cur := mn, hold := h.2, seed := h.1 }, mn)
    else
      ({ st with hold := st.hold - 1 }, st.cur)
  else if c.isWheelSpeed then
    let n1 := srNext st.seed
    ({ st with seed := n1.1 },
      dc.speed.getD i 0 * (99/100 + n1.2 * (2/100)))
  else if c.isTorque then
    let n1 := srNext st.seed
    ({ st with seed := n1.1 },
      mn + dc.load.getD i 0 / 100 * range + (n1.2 - 1/2) * (range * (5/100)))
  else if c.isTemp then
    let target := mx * (85/100)
    let ambient := max 20 mn
    let progress := 1 - o.exp (-(i : ℚ) / 1200)
    let v0 := ambient + (target - ambient) * progress
    (st, if dc.load.getD i 0 > 80 then v0 + 1/2 else v0 - 1/10)
  else if c.isVolt then
    let target : ℚ := if dc.rpm.getD i 0 > 400 then 72/5 else 62/5
    let n1 := srNext st.seed
    ({ st with seed := n1.1 }, target + (n1.2 - 1/2) * (2/10))
  else if c.isSteer then
    (st, dc.steering.getD i 0)
  else if c.isYaw then
    let steerDelta :=
      if 0 < i then dc.steering.getD i 0 - dc.steering.getD (i - 1) 0 else 0
    let n1 := srNext st.seed
    ({ st with seed := n1.1 },
      steerDelta * dc.speed.getD i 0 / 100 + (n1.2 - 1/2) * (1/10))
  else if c.isPressure then
    let n1 := srNext st.seed
    ({ st with seed := n1.1 },
      mn + dc.rpm.getD i 0 / 8000 * (range * (8/10)) +
        n1.2 * (range * (1/10)))
  else
    if range > 0 then
      let timeFactor := o.sin ((i : ℚ) / 50) * o.cos ((i : ℚ) / 120)
      let n1 := srNext st.seed
      ({ st with seed := n1.1 },
        mn + range / 2 + timeFactor * (range / 3) +
          (n1.2 - 1/2) * (range * (1/10)))
    else
      (st, o.sin ((i : ℚ) / 10) * 50 + 50)

/-- Strict clamping (lines 349-352): applied only when `max > min`. -/
def clampStep (mn mx v : ℚ) : ℚ :=
  if mx > mn then
    let v1 := if v > mx then mx else v
    if v1 < mn then mn else v1
  else v

/-- Quantization (lines 359-366): snap to the raw grid when `factor > 0`. -/
def quantStep (factor offset v : ℚ) : ℚ :=
  if factor > 0 then ((jsRound ((v - offset) / factor)) : ℚ) * factor + offset
  else v

/-- Display precision (lines 369-380): the number of digits after the
decimal point of the factor's textual form (or the exponent magnitude in
scientific notation), capped at 6, and 0 unless `0 < factor < 1`.  In the
rational model this is the least `d ≤ 6` making `factor * 10^d` integral,
with 6 as the fallback for factors whose expansion does not terminate
within the cap. -/
def fixDecimals (factor : ℚ) : ℕ :=
  if factor < 1 ∧ 0 < factor then
    min (((List.range 7).find? (fun d => (factor * 10 ^ d).den == 1)).getD 6) 6
  else 0

/-- The complete post-processing of one generated value (lines 347-382):
clamp, quantize, then `parseFloat(val.toFixed(decimals))`. -/
def postStep (mn mx factor offset v : ℚ) : ℚ :=
  jsToFixed (fixDecimals factor) (quantStep factor offset (clampStep mn mx v))

/-- The generation loop (lines 272-383). -/
def ssRun (o : Oracle) (dc : DriveCycle) (c : SigClass)
    (mn mx range factor offset : ℚ) : ℕ → ℕ → GenState → List ℚ
  | 0, _, _ => []
  | fuel + 1, i, st =>
      let sv := ssValue o dc c mn mx range i st
      postStep mn mx factor offset sv.2 ::
        ssRun o dc c mn mx range factor offset fuel (i + 1) sv.1

/-- `generateSmartSignal`: determine the effective range, classify, then
run the generation loop from `currentStateVal = Math.floor(min)`,
`stateHoldTimer = 0` and the caller-supplied generator state. -/
def generateSmartSignal (o : Oracle) (name : String)
    (dbcMin dbcMax factor offset : ℚ) (seed : ℕ) (dc : DriveCycle) : List ℚ :=
  let e := effConfig name dbcMin dbcMax factor
  let range := e.max - e.min
  let c := classify name e.min e.max e.factor
  ssRun o dc c e.min e.max range e.factor offset TOTAL_POINTS 0
    { cur := (⌊e.min⌋ : ℚ), hold := 0, seed := seed }

/-! ## Properties of the post-processing pipeline -/

theorem clampStep_mem {mn mx : ℚ} (h : mn < mx) (v : ℚ) :
    mn ≤ clampStep mn mx v ∧ clampStep mn mx v ≤ mx := by
  simp only [clampStep]
  split_ifs <;> constructor <;> linarith

theorem clampStep_id {mn mx : ℚ} (h : ¬ mn < mx) (v : ℚ) :
    clampStep mn mx v = v := by
  unfold clampStep
  rw [if_neg h]

theorem quantStep_grid {f : ℚ} (hf : 0 < f) (off v : ℚ) :
    ∃ k : ℤ, quantStep f off v = (k : ℚ) * f + off :=
  ⟨jsRound ((v - off) / f), by rw [quantStep, if_pos hf]⟩

theorem quantStep_close (f off v : ℚ) :
    |quantStep f off v - v| ≤ (if 0 < f then f / 2 else 0) := by
  unfold quantStep
  split_ifs with hf
  · have h := jsRound_abs_sub ((v - off) / f)
    have hne : f ≠ 0 := hf.ne'
    have heq : (jsRound ((v - off) / f) : ℚ) * f + off - v =
        ((jsRound ((v - off) / f) : ℚ) - (v - off) / f) * f := by
      field_simp
      ring
    rw [heq, abs_mul, abs_of_pos hf]
    have := mul_le_mul_of_nonneg_right h (le_of_lt hf)
    linarith
  · simp

theorem postStep_bounds {mn mx : ℚ} (h : mn < mx) (f off v : ℚ) :
    mn - (if 0 < f then f / 2 else 0) - 1/2 ≤ postStep mn mx f off v ∧
      postStep mn mx f off v ≤ mx + (if 0 < f then f / 2 else 0) + 1/2 := by
  obtain ⟨hc0, hc1⟩ := clampStep_mem h v
  have hq := quantStep_close f off (clampStep mn mx v)
  rw [abs_le] at hq
  have hr := jsToFixed_abs_sub (fixDecimals f)
    (quantStep f off (clampStep mn mx v))
  rw [abs_le] at hr
  have h10 : (1:ℚ) ≤ 10 ^ fixDecimals f := one_le_pow₀ (by norm_num)
  have hP : (1:ℚ) / 10 ^ fixDecimals f ≤ 1 := by
    rw [div_le_one (by positivity)]
    exact h10
  unfold postStep
  constructor <;> [obtain ⟨a, b⟩ := hq; obtain ⟨a, b⟩ := hq] <;>
    obtain ⟨c, d⟩ := hr <;> linarith

/-- Every element of the generation loop's output is the post-processing
of some raw generated value. -/
theorem ssRun_shape (o : Oracle) (dc : DriveCycle) (c : SigClass)
    (mn mx range factor offset : ℚ) :
    ∀ (fuel i : ℕ) (st : GenState),
      ∀ v ∈ ssRun o dc c mn mx range factor offset fuel i st,
        ∃ raw, v = postStep mn mx factor offset raw := by
  intro fuel
  induction fuel with
  | zero =>
      intro i st v hv
      simp [ssRun] at hv
  | succ n ih =>
      intro i st v hv
      simp only [ssRun, List.mem_cons] at hv
      rcases hv with rfl | hv
      · exact ⟨_, rfl⟩
      · exact ih _ _ v hv

/-- In the counter archetype the loop ignores its threaded state and the
drive cycle: sample `j` is `j mod (limit+1)`, post-processed. -/
theorem ssRun_counter (o : Oracle) (dc : DriveCycle) (c : SigClass)
    (mn mx range factor offset : ℚ) (h : c.isCounter = true) :
    ∀ (fuel i : ℕ) (st : GenState),
      ssRun o dc c mn mx range factor offset fuel i st =
        (List.range' i fuel).map (fun (j : ℕ) => postStep mn mx factor offset
          (((j : ℤ) % ((if mx > 0 then ⌊mx⌋ else 15) + 1) : ℤ) : ℚ)) := by
  intro fuel
  induction fuel with
  | zero =>
      intro i st
      simp [ssRun]
  | succ n ih =>
      intro i st
      have hval : ssValue o dc c mn mx range i st =
          (st, (((i : ℤ) % ((if mx > 0 then ⌊mx⌋ else 15) + 1) : ℤ) : ℚ)) := by
        unfold ssValue
        rw [h]
        rfl
      simp only [ssRun, hval, List.range'_succ, List.map_cons]
      rw [ih (i + 1) st]

/-- When the declared range is non-degenerate the effective configuration
is the declared one. -/
theorem effConfig_of_lt {a b f : ℚ} (h : a < b) (name : String) :
    effConfig name a b f = ⟨a, b, f⟩ := by
  unfold effConfig
  rw [if_neg, if_neg]
  · rintro ⟨h0, h1⟩
    rw [h0, h1] at h
    exact lt_irrefl 0 h
  · rintro ⟨hge, -⟩
    exact absurd h (not_lt.mpr hge)

/-- C2 (amended): quantization and display rounding run *after* the clamp,
so for a descriptor with `max > min` every synthesized value lies within
`[min, max]` widened by half a quantization step (when `factor > 0`) plus
half a display-rounding unit; the clamp stage itself maps every value into
`[min, max]`, and when `min ≥ max` the clamp stage is the identity. -/
theorem C2_clamp_amended (o : Oracle) (dc : DriveCycle) (name : String)
    (dbcMin dbcMax factor offset : ℚ) (seed : ℕ) (h : dbcMin < dbcMax) :
    (∀ v ∈ generateSmartSignal o name dbcMin dbcMax factor offset seed dc,
        dbcMin - (if 0 < factor then factor / 2 else 0) - 1/2 ≤ v ∧
        v ≤ dbcMax + (if 0 < factor then factor / 2 else 0) + 1/2) ∧
    (∀ v : ℚ, dbcMin ≤ clampStep dbcMin dbcMax v ∧
        clampStep dbcMin dbcMax v ≤ dbcMax) ∧
    (∀ mn mx v : ℚ, ¬ mn < mx → clampStep mn mx v = v) := by
  refine ⟨?_, fun v => clampStep_mem h v, fun mn mx v hx => clampStep_id hx v⟩
  intro v hv
  simp only [generateSmartSignal, effConfig_of_lt h name] at hv
  obtain ⟨raw, rfl⟩ := ssRun_shape _ _ _ _ _ _ _ _ _ _ _ _ hv
  exact postStep_bounds h factor offset raw

/-- Witness for C2 (amended) at a concrete descriptor. -/
theorem C2_clamp_amended_witness :
    (0:ℚ) < 10 ∧
    ((∀ v ∈ generateSmartSignal oracle0 "sig" 0 10 1 0 1
          (generateDriveCycle oracle0),
        (0:ℚ) - (if (0:ℚ) < 1 then (1:ℚ) / 2 else 0) - 1/2 ≤ v ∧
        v ≤ 10 + (if (0:ℚ) < 1 then (1:ℚ) / 2 else 0) + 1/2) ∧
      (∀ v : ℚ, (0:ℚ) ≤ clampStep 0 10 v ∧ clampStep 0 10 v ≤ 10) ∧
      (∀ mn mx v : ℚ, ¬ mn < mx → clampStep mn mx v = v)) :=
  ⟨by norm_num,
   C2_clamp_amended oracle0 (generateDriveCycle oracle0) "sig" 0 10 1 0 1
     (by norm_num)⟩

/-- C2 counterexample: the claim as stated is false — the counter signal
`"cnt"` with declared range `[0, 10]` and factor 4 produces the value 12,
because the sample `10` is clamped into range but then quantized to the
grid point `12 = round(10/4)*4`. -/
theorem C2_clamp_counterexample :
    ∃ v ∈ generateSmartSignal oracle0 "cnt" 0 10 4 0 (hashCode "cnt")
        (generateDriveCycle oracle0), ¬((0:ℚ) ≤ v ∧ v ≤ 10) := by
  have he : effConfig "cnt" 0 10 4 = ⟨0, 10, 4⟩ :=
    effConfig_of_lt (by norm_num) _
  have hc : (classify "cnt" (0:ℚ) 10 4).isCounter = true := by decide
  refine ⟨12, ?_, by norm_num⟩
  simp only [generateSmartSignal, he]
  rw [ssRun_counter _ _ _ _ _ _ _ _ hc]
  apply List.mem_map.mpr
  refine ⟨10, ?_, ?_⟩
  · rw [List.mem_range'_1]
    norm_num [TOTAL_POINTS]
  · norm_num [postStep, clampStep, quantStep, fixDecimals, jsToFixed, jsRound]

/-- C3 (amended): for positive effective factor, every emitted value is the
display rounding (to the factor-derived decimal count) of a point on the
grid `k*factor + offset`, hence within half a display-rounding unit of
that grid point; the exact round-trip of the claim holds only before the
final `toFixed`. -/
theorem C3_quant_amended (o : Oracle) (dc : DriveCycle) (name : String)
    (dbcMin dbcMax factor offset : ℚ) (seed : ℕ)
    (h : 0 < (effConfig name dbcMin dbcMax factor).factor) :
    ∀ v ∈ generateSmartSignal o name dbcMin dbcMax factor offset seed dc,
      ∃ k : ℤ,
        v = jsToFixed (fixDecimals (effConfig name dbcMin dbcMax factor).factor)
          ((k : ℚ) * (effConfig name dbcMin dbcMax factor).factor + offset) ∧
        |v - ((k : ℚ) * (effConfig name dbcMin dbcMax factor).factor + offset)| ≤
          1/2 * (1 / 10 ^ fixDecimals (effConfig name dbcMin dbcMax factor).factor) := by
  intro v hv
  simp only [generateSmartSignal] at hv
  obtain ⟨raw, rfl⟩ := ssRun_shape _ _ _ _ _ _ _ _ _ _ _ _ hv
  obtain ⟨k, hk⟩ := quantStep_grid h offset
    (clampStep (effConfig name dbcMin dbcMax factor).min
      (effConfig name dbcMin dbcMax factor).max raw)
  refine ⟨k, ?_, ?_⟩
  · rw [postStep, hk]
  · rw [postStep, hk]
    exact jsToFixed_abs_sub _ _

/-- Witness for C3 (amended) at a concrete descriptor. -/
theorem C3_quant_amended_witness :
    (0:ℚ) < (effConfig "sig" 0 10 1).factor ∧
    (∀ v ∈ generateSmartSignal oracle0 "sig" 0 10 1 0 1
        (generateDriveCycle oracle0),
      ∃ k : ℤ,
        v = jsToFixed (fixDecimals (effConfig "sig" 0 10 1).factor)
          ((k : ℚ) * (effConfig "sig" 0 10 1).factor + 0) ∧
        |v - ((k : ℚ) * (effConfig "sig" 0 10 1).factor + 0)| ≤
          1/2 * (1 / 10 ^ fixDecimals (effConfig "sig" 0 10 1).factor)) :=
  ⟨by rw [effConfig_of_lt (by norm_num : (0:ℚ) < 10)]; norm_num,
   C3_quant_amended oracle0 (generateDriveCycle oracle0) "sig" 0 10 1 0 1
     (by rw [effConfig_of_lt (by norm_num : (0:ℚ) < 10)]; norm_num)⟩

/-- C3 counterexample: the claim as stated is false — with factor 2.5 the
counter signal `"cnt"` emits the value 3 (grid point 2.5 rounded by
`toFixed(0)`), and `round((3-0)/2.5)*2.5 + 0 = 2.5 ≠ 3`, an error of 1/2,
far beyond floating-point tolerance. -/
theorem C3_quant_counterexample :
    ∃ v ∈ generateSmartSignal oracle0 "cnt" 0 10 (5/2) 0 (hashCode "cnt")
        (generateDriveCycle oracle0),
      ((jsRound ((v - 0) / (5/2)) : ℚ) * (5/2) + 0 ≠ v ∧
        |(jsRound ((v - 0) / (5/2)) : ℚ) * (5/2) + 0 - v| = 1/2) := by
  have he : effConfig "cnt" 0 10 (5/2) = ⟨0, 10, 5/2⟩ :=
    effConfig_of_lt (by norm_num) _
  have hc : (classify "cnt" (0:ℚ) 10 (5/2)).isCounter = true := by decide
  refine ⟨3, ?_, by norm_num [jsRound]⟩
  simp only [generateSmartSignal, he]
  rw [ssRun_counter _ _ _ _ _ _ _ _ hc]
  apply List.mem_map.mpr
  refine ⟨2, ?_, ?_⟩
  · rw [List.mem_range'_1]
    norm_num [TOTAL_POINTS]
  · norm_num [postStep, clampStep, quantStep, fixDecimals, jsToFixed, jsRound]

/-! ## Descriptor records (`SignalMetadata` / `DbcSignalInfo`)

`DbcSignalInfo` extends `SignalMetadata` with optional `factor`/`offset`;
descriptors from the non-DBC discovery paths leave them undefined, which
the synthesizer's parameter defaults turn into `1` and `0`, so the model
carries them on every descriptor with those defaults. -/

structure SignalMetadata where
  name : String
  unit : String
  min : ℚ
  max : ℚ
  avg : ℚ
  stdDev : ℚ
  color : String
  factor : ℚ := 1
  offset : ℚ := 0
deriving DecidableEq

/-- The 16-colour palette (lines 4-7). -/
def COLORS : List String :=
  ["#3b82f6", "#ef4444", "#10b981", "#f59e0b", "#8b5cf6", "#ec4899",
   "#06b6d4", "#f43f5e", "#6366f1", "#84cc16", "#d946ef", "#0ea5e9",
   "#a855f7", "#14b8a6", "#f97316", "#d946ef"]

/-- `COLORS[i % COLORS.length]`. -/
def colorAt (i : ℕ) : String := COLORS.getD (i % COLORS.length) ""

/-! ## The binary string scanner (`scanBinaryForStrings`, lines 497-531)

The function reads at most the first 5 MB of the file; the model takes
that byte slice as its input list. -/

/-- `^[a-zA-Z][a-zA-Z0-9_.-]+$` -/
def isWordTail (c : Char) : Bool :=
  c.isAlpha || c.isDigit || c == '_' || c == '.' || c == '-'

def matchesNameRe (s : String) : Bool :=
  match s.data with
  | [] => false
  | c :: rest => c.isAlpha && !rest.isEmpty && rest.all isWordTail

/-- Split `hay` at the first occurrence of `pat`, returning the part
before and the part after the pattern. -/
def findSub : List Char → List Char → Option (List Char × List Char)
  | [], pat => if pat.isEmpty then some ([], []) else none
  | l@(c :: rest), pat =>
      if listStartsWith l pat then some ([], l.drop pat.length)
      else match findSub rest pat with
        | some (pre, post) => some (c :: pre, post)
        | none => none

/-- `cleaned.match(/<CN>(.*?)<\/CN>/)` — the lazily captured inner text of
the first matched tag pair, when one exists. -/
def cnExtract (s : String) : Option String :=
  match findSub s.data "<CN>".data with
  | none => none
  | some (_, rest) =>
      match findSub rest "</CN>".data with
      | none => none
      | some (mid, _) => some ⟨mid⟩

/-- One step of the byte loop (lines 505-521): printable ASCII bytes grow
the current run; any other byte flushes it through the token filters.
The run left pending when the input ends is never flushed, as in the
source. -/
def scanStep (st : List Char × List String) (b : ℕ) : List Char × List String :=
  if 32 ≤ b ∧ b ≤ 126 then (st.1 ++ [Char.ofNat b], st.2)
  else
    let acc :=
      if st.1.length > 2 then
        let cleaned := (String.mk st.1).trim
        if matchesNameRe cleaned then
          if cleaned.length > 2 ∧ cleaned.length < 50 then st.2 ++ [cleaned]
          else st.2
        else
          match cnExtract cleaned with
          | some inner => st.2 ++ [inner]
          | none => st.2
      else st.2
    ([], acc)

/-- The vendor/format banner block-list (line 523). -/
def blockList : List String :=
  ["MDF4", "Vector", "CANape", "Intel", "Motorola", "Version", "Format",
   "Date", "Time", "Program", "Block", "HDBlock", "DGBlock"]

/-- `/^\d+$/` -/
def isAllDigits (s : String) : Bool := !s.data.isEmpty && s.data.all Char.isDigit

/-- `Array.from(new Set(strings))` — deduplication keeping the first
occurrence, preserving order. -/
def dedupFirstAux (seen : List String) : List String → List String
  | [] => []
  | s :: rest =>
      if s ∈ seen then dedupFirstAux seen rest
      else s :: dedupFirstAux (s :: seen) rest

def dedupFirst (l : List String) : List String := dedupFirstAux [] l

def scanBinaryForStrings (bytes : List ℕ) : List String :=
  let raw := (bytes.foldl scanStep ([], [])).2
  let filtered := raw.filter (fun s =>
    !(blockList.any (fun bad => strIncludes s bad)) && !(isAllDigits s) &&
      decide (s.length > 2))
  dedupFirst filtered

/-! ## Number rendering for the synthetic fallback names -/

def digitChar (n : ℕ) : Char :=
  if n < 10 then Char.ofNat (48 + n) else Char.ofNat (55 + n)

/-- Digits of `n` in the given base, least significant first; the fuel
argument (any bound with `n ≤ fuel`) keeps the recursion structural. -/
def digitsRevAux (base : ℕ) : ℕ → ℕ → List Char
  | 0, _ => []
  | _ + 1, 0 => []
  | fuel + 1, n + 1 =>
      digitChar ((n + 1) % base) :: digitsRevAux base fuel ((n + 1) / base)

/-- `n.toString(base).toUpperCase()` for `base` 10 or 16 (the digits are
emitted uppercase directly). -/
def natToBase (base n : ℕ) : String :=
  if n = 0 then "0" else ⟨(digitsRevAux base n n).reverse⟩

def natToHexUpper (n : ℕ) : String := natToBase 16 n

def natToDec (n : ℕ) : String := natToBase 10 n

/-- The synthetic fallback descriptor list (lines 630-636). -/
def fallbackSignals : List SignalMetadata :=
  (List.range 12).map (fun i =>
    { name := "CAN_ID_0x" ++ natToHexUpper (200 + i * 10) ++ "_Signal_" ++
        natToDec i
      unit := "raw", min := 0, max := 0, avg := 0, stdDev := 0,
      color := colorAt i })

/-- Binary-path discovery (lines 617-637): DBC descriptors if any,
otherwise scanned strings when more than 5 were found, otherwise the
fixed synthetic fallback. -/
def discoverSignals (dbcSignals : List SignalMetadata)
    (rawStrings : List String) : List SignalMetadata :=
  if dbcSignals.length ≠ 0 then dbcSignals
  else if rawStrings.length > 5 then
    (rawStrings.take 100).enum.map (fun p =>
      { name := p.2, unit := "-", min := 0, max := 0, avg := 0, stdDev := 0,
        color := colorAt p.1 })
  else fallbackSignals

/-- C7: Discovery fallback — when the description file yields no signals
and binary scanning yields fewer than 6 plausible strings, discovery
returns exactly the 12 descriptors `CAN_ID_0x<hex>_Signal_<i>` for
`i = 0..11`, each with unit `"raw"` and `min = max = 0`. -/
theorem C7_discovery_fallback (bytes : List ℕ)
    (h : (scanBinaryForStrings bytes).length ≤ 5) :
    discoverSignals [] (scanBinaryForStrings bytes) =
      [⟨"CAN_ID_0xC8_Signal_0", "raw", 0, 0, 0, 0, colorAt 0, 1, 0⟩,
       ⟨"CAN_ID_0xD2_Signal_1", "raw", 0, 0, 0, 0, colorAt 1, 1, 0⟩,
       ⟨"CAN_ID_0xDC_Signal_2", "raw", 0, 0, 0, 0, colorAt 2, 1, 0⟩,
       ⟨"CAN_ID_0xE6_Signal_3", "raw", 0, 0, 0, 0, colorAt 3, 1, 0⟩,
       ⟨"CAN_ID_0xF0_Signal_4", "raw", 0, 0, 0, 0, colorAt 4, 1, 0⟩,
       ⟨"CAN_ID_0xFA_Signal_5", "raw", 0, 0, 0, 0, colorAt 5, 1, 0⟩,
       ⟨"CAN_ID_0x104_Signal_6", "raw", 0, 0, 0, 0, colorAt 6, 1, 0⟩,
       ⟨"CAN_ID_0x10E_Signal_7", "raw", 0, 0, 0, 0, colorAt 7, 1, 0⟩,
       ⟨"CAN_ID_0x118_Signal_8", "raw", 0, 0, 0, 0, colorAt 8, 1, 0⟩,
       ⟨"CAN_ID_0x122_Signal_9", "raw", 0, 0, 0, 0, colorAt 9, 1, 0⟩,
       ⟨"CAN_ID_0x12C_Signal_10", "raw", 0, 0, 0, 0, colorAt 10, 1, 0⟩,
       ⟨"CAN_ID_0x136_Signal_11", "raw", 0, 0, 0, 0, colorAt 11, 1, 0⟩] := by
  rw [discoverSignals, if_neg (by norm_num), if_neg (by omega)]
  decide

/-- Witness for C7 on the empty byte input. -/
theorem C7_discovery_fallback_witness :
    (scanBinaryForStrings []).length ≤ 5 ∧
    discoverSignals [] (scanBinaryForStrings []) =
      [⟨"CAN_ID_0xC8_Signal_0", "raw", 0, 0, 0, 0, colorAt 0, 1, 0⟩,
       ⟨"CAN_ID_0xD2_Signal_1", "raw", 0, 0, 0, 0, colorAt 1, 1, 0⟩,
       ⟨"CAN_ID_0xDC_Signal_2", "raw", 0, 0, 0, 0, colorAt 2, 1, 0⟩,
       ⟨"CAN_ID_0xE6_Signal_3", "raw", 0, 0, 0, 0, colorAt 3, 1, 0⟩,
       ⟨"CAN_ID_0xF0_Signal_4", "raw", 0, 0, 0, 0, colorAt 4, 1, 0⟩,
       ⟨"CAN_ID_0xFA_Signal_5", "raw", 0, 0, 0, 0, colorAt 5, 1, 0⟩,
       ⟨"CAN_ID_0x104_Signal_6", "raw", 0, 0, 0, 0, colorAt 6, 1, 0⟩,
       ⟨"CAN_ID_0x10E_Signal_7", "raw", 0, 0, 0, 0, colorAt 7, 1, 0⟩,
       ⟨"CAN_ID_0x118_Signal_8", "raw", 0, 0, 0, 0, colorAt 8, 1, 0⟩,
       ⟨"CAN_ID_0x122_Signal_9", "raw", 0, 0, 0, 0, colorAt 9, 1, 0⟩,
       ⟨"CAN_ID_0x12C_Signal_10", "raw", 0, 0, 0, 0, colorAt 10, 1, 0⟩,
       ⟨"CAN_ID_0x136_Signal_11", "raw", 0, 0, 0, 0, colorAt 11, 1, 0⟩] :=
  ⟨by decide, C7_discovery_fallback [] (by decide)⟩

/-! ## Per-signal series assignment (`parseFile` step 3, lines 639-673) -/

inductive Channel
  | speed
  | rpm
  | throttle
  | brake
  | gear
  | wipers
  | lights
deriving DecidableEq

def channelData (ch : Channel) (dc : DriveCycle) : List ℚ :=
  match ch with
  | .speed => dc.speed
  | .rpm => dc.rpm
  | .throttle => dc.throttle
  | .brake => dc.brake
  | .gear => dc.gear
  | .wipers => dc.wipers
  | .lights => dc.lights

/-- The alias dispatch chain (lines 647-666), with conditions and order
verbatim from the source; `none` falls through to smart generation.
Note that the `brake && pedal` arm is unreachable: every name containing
`"pedal"` is already captured by the throttle arm two branches earlier. -/
def aliasChannel (name : String) : Option Channel :=
  let n := strLower name
  if n = "vehiclespeed" ∨ n = "enginespeed" ∨ n = "speed" ∨ n = "rpm" then
    if strIncludes n "speed" then some .speed else some .rpm
  else if strIncludes n "speed" ∧ ¬ strIncludes n "fan" ∧
      ¬ strIncludes n "wheel" then some .speed
  else if (strIncludes n "rpm" ∨ strIncludes n "engine_speed") ∧
      ¬ strIncludes n "fan" then some .rpm
  else if strIncludes n "throttle" ∨ strIncludes n "pedal" ∨
      strIncludes n "accel_pos" then some .throttle
  else if strIncludes n "brake" ∧ strIncludes n "pedal" then some .brake
  else if strIncludes n "gear" then some .gear
  else if strIncludes n "wiper" then some .wipers
  else if strIncludes n "light" ∧ ¬ strIncludes n "lightning" then some .lights
  else none

/-- The body of the per-descriptor `forEach` (lines 643-673): a matching
name receives the shared drive-cycle array itself; otherwise the smart
generator runs with a generator seeded from the name's hash. -/
def assignSeries (o : Oracle) (dc : DriveCycle) (sig : SignalMetadata) :
    List ℚ :=
  match aliasChannel sig.name with
  | some ch => channelData ch dc
  | none =>
      generateSmartSignal o sig.name sig.min sig.max sig.factor sig.offset
        (hashCode sig.name) dc

/-- JS object property assignment `m[k] = v`: replace in place, or append. -/
def recSet {α : Type} : List (String × α) → String → α → List (String × α)
  | [], k, v => [(k, v)]
  | (k', v') :: rest, k, v =>
      if k' = k then (k', v) :: rest else (k', v') :: recSet rest k v

/-- JS object property read `m[k]` (keys are unique by construction). -/
def recGet {α : Type} : List (String × α) → String → Option α
  | [], _ => none
  | (k', v) :: rest, k => if k' = k then some v else recGet rest k

/-- `signalDataMap` construction (lines 641-673). -/
def buildSignalMap (o : Oracle) (dc : DriveCycle)
    (sigs : List SignalMetadata) : List (String × List ℚ) :=
  sigs.foldl (fun m sig => recSet m sig.name (assignSeries o dc sig)) []

theorem recGet_recSet_self {α : Type} (m : List (String × α)) (k : String)
    (v : α) : recGet (recSet m k v) k = some v := by
  induction m with
  | nil => simp [recSet, recGet]
  | cons p rest ih =>
      obtain ⟨k', v'⟩ := p
      by_cases h : k' = k
      · subst h
        simp [recSet, recGet]
      · simp only [recSet, if_neg h, recGet]
        exact ih

theorem recGet_recSet_other {α : Type} (m : List (String × α))
    {k k' : String} (h : k ≠ k') (v : α) :
    recGet (recSet m k' v) k = recGet m k := by
  induction m with
  | nil =>
      simp only [recSet, recGet]
      rw [if_neg (Ne.symm h)]
  | cons p rest ih =>
      obtain ⟨k0, v0⟩ := p
      by_cases h0 : k0 = k'
      · subst h0
        simp only [recSet, if_pos rfl, recGet]
        rw [if_neg (Ne.symm h), if_neg (Ne.symm h)]
      · simp only [recSet, if_neg h0, recGet]
        by_cases hk : k0 = k
        · rw [if_pos hk, if_pos hk]
        · rw [if_neg hk, if_neg hk]
          exact ih

/-- Folding further assignments for other names leaves a key's binding
untouched. -/
theorem buildSignalMap_preserve (o : Oracle) (dc : DriveCycle) :
    ∀ (sigs : List SignalMetadata) (m : List (String × List ℚ)) (k : String),
      k ∉ sigs.map (·.name) →
      recGet (sigs.foldl
        (fun m sig => recSet m sig.name (assignSeries o dc sig)) m) k =
        recGet m k := by
  intro sigs
  induction sigs with
  | nil => intro m k _; rfl
  | cons s rest ih =>
      intro m k hk
      simp only [List.map_cons, List.mem_cons] at hk
      push_neg at hk
      simp only [List.foldl_cons]
      rw [ih _ k hk.2, recGet_recSet_other _ hk.1]

/-- With pairwise-distinct names, the map binds each descriptor's name to
exactly the series computed from that descriptor alone. -/
theorem buildSignalMap_get (o : Oracle) (dc : DriveCycle) :
    ∀ (sigs : List SignalMetadata) (m : List (String × List ℚ))
      (sig : SignalMetadata), sig ∈ sigs → (sigs.map (·.name)).Nodup →
      recGet (sigs.foldl
        (fun m sig => recSet m sig.name (assignSeries o dc sig)) m) sig.name =
        some (assignSeries o dc sig) := by
  intro sigs
  induction sigs with
  | nil => intro m sig h; exact absurd h (List.not_mem_nil _)
  | cons s rest ih =>
      intro m sig hmem hnd
      simp only [List.map_cons, List.nodup_cons] at hnd
      rcases List.mem_cons.mp hmem with rfl | hmem'
      · simp only [List.foldl_cons]
        rw [buildSignalMap_preserve o dc rest _ sig.name hnd.1,
          recGet_recSet_self]
      · simp only [List.foldl_cons]
        exact ih _ sig hmem' hnd.2

/-- C1: Determinism of synthesis — the drive cycle is a fixed pure value
(regenerated identically from seed 12345 on every call) and the series
bound to a signal name depends only on that signal's descriptor (the
generator is seeded solely from the name's hash), so two synthesis runs
over any two discovery lists containing the descriptor — in particular two
independent runs over the same inputs — bind the name to element-wise
identical value sequences. -/
theorem C1_determinism (o : Oracle) (sigs1 sigs2 : List SignalMetadata)
    (sig : SignalMetadata) (h1 : sig ∈ sigs1) (h2 : sig ∈ sigs2)
    (hn1 : (sigs1.map (·.name)).Nodup) (hn2 : (sigs2.map (·.name)).Nodup) :
    recGet (buildSignalMap o (generateDriveCycle o) sigs1) sig.name =
      recGet (buildSignalMap o (generateDriveCycle o) sigs2) sig.name ∧
    recGet (buildSignalMap o (generateDriveCycle o) sigs1) sig.name =
      some (assignSeries o (generateDriveCycle o) sig) := by
  have g1 := buildSignalMap_get o (generateDriveCycle o) sigs1 [] sig h1 hn1
  have g2 := buildSignalMap_get o (generateDriveCycle o) sigs2 [] sig h2 hn2
  exact ⟨by rw [buildSignalMap, g1, buildSignalMap, g2], g1⟩

/-- Two concrete descriptors used to instantiate C1. -/
def dCoolant : SignalMetadata := ⟨"CoolantTemp", "-", 0, 0, 0, 0, "", 1, 0⟩

def dOil : SignalMetadata := ⟨"OilPressure", "-", 0, 0, 0, 0, "", 1, 0⟩

/-- Witness for C1: the same descriptor inside two different discovery
lists. -/
theorem C1_determinism_witness :
    dCoolant ∈ [dCoolant] ∧ dCoolant ∈ [dOil, dCoolant] ∧
    (([dCoolant].map (·.name)).Nodup ∧ ([dOil, dCoolant].map (·.name)).Nodup) ∧
    (recGet (buildSignalMap oracle0 (generateDriveCycle oracle0) [dCoolant])
        dCoolant.name =
      recGet (buildSignalMap oracle0 (generateDriveCycle oracle0)
        [dOil, dCoolant]) dCoolant.name ∧
    recGet (buildSignalMap oracle0 (generateDriveCycle oracle0) [dCoolant])
        dCoolant.name =
      some (assignSeries oracle0 (generateDriveCycle oracle0) dCoolant)) :=
  ⟨by decide, by decide, ⟨by decide, by decide⟩,
   C1_determinism oracle0 [dCoolant] [dOil, dCoolant] dCoolant (by decide)
     (by decide) (by decide) (by decide)⟩

/-- C6: Aliasing bypasses post-processing — a descriptor whose lowercased
name matches an alias rule receives the shared drive-cycle array itself,
for every declared `min`/`max`/`factor`/`offset` (so it is never clamped
or quantized), and two descriptors aliasing to the same channel receive
element-wise identical series; the concrete conjuncts check the example
rules (note `Brake_Pedal` lands on the throttle channel because the
`pedal` substring is captured by the throttle arm first). -/
theorem C6_alias_bypass (o : Oracle) (dc : DriveCycle) :
    (∀ (sig : SignalMetadata) (ch : Channel),
      aliasChannel sig.name = some ch →
      assignSeries o dc sig = channelData ch dc ∧
      (∀ mn mx f off : ℚ,
        assignSeries o dc
          { sig with min := mn, max := mx, factor := f, offset := off } =
          channelData ch dc) ∧
      (∀ sig2 : SignalMetadata, aliasChannel sig2.name = some ch →
        assignSeries o dc sig2 = assignSeries o dc sig)) ∧
    aliasChannel "DisplaySpeed" = some .speed ∧
    aliasChannel "EngineRPM" = some .rpm ∧
    aliasChannel "ThrottlePos" = some .throttle ∧
    aliasChannel "Brake_Pedal" = some .throttle ∧
    aliasChannel "GearPos" = some .gear ∧
    aliasChannel "WiperState" = some .wipers ∧
    aliasChannel "HeadLightSw" = some .lights ∧
    aliasChannel "FanSpeed" = none ∧
    aliasChannel "WheelSpeed_FL" = none ∧
    aliasChannel "Lightning_Cnt" = none := by
  refine ⟨?_, by decide, by decide, by decide, by decide, by decide,
    by decide, by decide, by decide, by decide, by decide⟩
  intro sig ch h
  have hupd : ∀ mn mx f off : ℚ,
      ({ sig with min := mn, max := mx, factor := f, offset := off } :
        SignalMetadata).name = sig.name := fun _ _ _ _ => rfl
  refine ⟨?_, ?_, ?_⟩
  · unfold assignSeries
    rw [h]
  · intro mn mx f off
    unfold assignSeries
    rw [hupd, h]
  · intro sig2 h2
    unfold assignSeries
    rw [h, h2]

/-- Witness for C6 at a concrete gear-aliased descriptor. -/
theorem C6_alias_bypass_witness :
    aliasChannel
        (⟨"GearPos", "-", 0, 6, 0, 0, "", 1, 0⟩ : SignalMetadata).name =
      some Channel.gear ∧
    assignSeries oracle0 (generateDriveCycle oracle0)
        ⟨"GearPos", "-", 0, 6, 0, 0, "", 1, 0⟩ =
      channelData Channel.gear (generateDriveCycle oracle0) :=
  ⟨by decide,
   (((C6_alias_bypass oracle0 (generateDriveCycle oracle0)).1
      ⟨"GearPos", "-", 0, 6, 0, 0, "", 1, 0⟩ Channel.gear (by decide)).1)⟩

/-! ## Character-list implementations of the JS string operations

(The Lean core `String` functions are avoided so that every definition
reduces; these mirror the ECMAScript operations directly.) -/

/-- JS `s.trim()`. -/
def jsTrim (s : String) : String :=
  ⟨((s.data.dropWhile Char.isWhitespace).reverse.dropWhile
      Char.isWhitespace).reverse⟩

/-- JS `s.split(c)` for a single-character separator. -/
def splitCharAux (c : Char) : List Char → List Char → List String
  | [], cur => [⟨cur.reverse⟩]
  | x :: rest, cur =>
      if x == c then ⟨cur.reverse⟩ :: splitCharAux c rest []
      else splitCharAux c rest (x :: cur)

def splitChar (c : Char) (s : String) : List String := splitCharAux c s.data []

/-- JS `s.split(/\s+/)` on an already-trimmed string: whitespace-separated
words (empty fragments dropped). -/
def splitWsAux : List Char → List Char → List String
  | [], cur => if cur.isEmpty then [] else [⟨cur.reverse⟩]
  | x :: rest, cur =>
      if x.isWhitespace then
        if cur.isEmpty then splitWsAux rest []
        else ⟨cur.reverse⟩ :: splitWsAux rest []
      else splitWsAux rest (x :: cur)

def splitWs (s : String) : List String := splitWsAux s.data []

/-- JS `parts.join(c)`. -/
def joinChar (c : Char) : List String → String
  | [] => ""
  | [s] => s
  | s :: rest => s ++ ⟨[c]⟩ ++ joinChar c rest

/-- JS `s.startsWith(pat)`. -/
def strStartsWith (s pat : String) : Bool := listStartsWith s.data pat.data

/-! ## The description-file parser (`parseDBC`, lines 413-495) -/

def digitsVal (ds : List Char) : ℕ :=
  ds.foldl (fun a c => a * 10 + (c.toNat - 48)) 0

/-- Fraction and exponent suffix of a number literal
(`(\.\d*)?([eE][+-]?\d+)?`), applied to a sign and parsed integer part;
returns the literal's exact value and the remaining input. -/
def numAfterInt (sgn : ℚ) (ip : ℕ) (r : List Char) : ℚ × List Char :=
  let fr : ℚ × List Char :=
    match r with
    | '.' :: rr =>
        let ds := rr.takeWhile Char.isDigit
        ((digitsVal ds : ℚ) / 10 ^ ds.length, rr.dropWhile Char.isDigit)
    | _ => (0, r)
  let ex : ℤ × List Char :=
    match fr.2 with
    | c :: rr =>
        if c == 'e' ∨ c == 'E' then
          match rr with
          | '+' :: rr2 =>
              let ds := rr2.takeWhile Char.isDigit
              if ds.isEmpty then (0, fr.2)
              else ((digitsVal ds : ℤ), rr2.dropWhile Char.isDigit)
          | '-' :: rr2 =>
              let ds := rr2.takeWhile Char.isDigit
              if ds.isEmpty then (0, fr.2)
              else (-(digitsVal ds : ℤ), rr2.dropWhile Char.isDigit)
          | _ =>
              let ds := rr.takeWhile Char.isDigit
              if ds.isEmpty then (0, fr.2)
              else ((digitsVal ds : ℤ), rr.dropWhile Char.isDigit)
        else (0, fr.2)
    | [] => (0, fr.2)
  (sgn * ((ip : ℚ) + fr.1) * (10 : ℚ) ^ ex.1, ex.2)

/-- One number literal of the DBC metadata regexes:
`[+\-]?(0|[1-9]\d*)(\.\d*)?([eE][+\-]?\d+)?`. -/
def parseNumLit (l : List Char) : Option (ℚ × List Char) :=
  let sgn : ℚ × List Char :=
    match l with
    | '+' :: r => (1, r)
    | '-' :: r => (-1, r)
    | _ => (1, l)
  match sgn.2 with
  | [] => none
  | c :: r =>
      if c == '0' then some (numAfterInt sgn.1 0 r)
      else if c.isDigit then
        some (numAfterInt sgn.1 (digitsVal ((c :: r).takeWhile Char.isDigit))
          ((c :: r).dropWhile Char.isDigit))
      else none

/-- Attempt the scale pattern `\(\s*num\s*,\s*num\s*\)` at the head. -/
def parseScaleAt : List Char → Option (ℚ × ℚ)
  | '(' :: r =>
      match parseNumLit (r.dropWhile Char.isWhitespace) with
      | none => none
      | some (f, r1) =>
          match r1.dropWhile Char.isWhitespace with
          | ',' :: r2 =>
              match parseNumLit (r2.dropWhile Char.isWhitespace) with
              | none => none
              | some (off, r3) =>
                  match r3.dropWhile Char.isWhitespace with
                  | ')' :: _ => some (f, off)
                  | _ => none
          | _ => none
  | _ => none

/-- Attempt the range pattern `\[\s*num\s*\|\s*num\s*\]` at the head. -/
def parseRangeAt : List Char → Option (ℚ × ℚ)
  | '[' :: r =>
      match parseNumLit (r.dropWhile Char.isWhitespace) with
      | none => none
      | some (mn, r1) =>
          match r1.dropWhile Char.isWhitespace with
          | '|' :: r2 =>
              match parseNumLit (r2.dropWhile Char.isWhitespace) with
              | none => none
              | some (mx, r3) =>
                  match r3.dropWhile Char.isWhitespace with
                  | ']' :: _ => some (mn, mx)
                  | _ => none
          | _ => none
  | _ => none

/-- Attempt the unit pattern `"([^"]*)"` at the head. -/
def parseQuotedAt : List Char → Option String
  | '"' :: r =>
      match r.dropWhile (fun c => !(c == '"')) with
      | '"' :: _ => some ⟨r.takeWhile (fun c => !(c == '"'))⟩
      | _ => none
  | _ => none

/-- Leftmost-match search: try the pattern at every position. -/
def scanFor {α : Type} (p : List Char → Option α) : List Char → Option α
  | [] => p []
  | l@(_ :: rest) => (p l).orElse (fun _ => scanFor p rest)

/-- The parser's accumulator: the `seen` name set and the descriptor
list. -/
structure DbcAcc where
  seen : List String
  metadata : List SignalMetadata
deriving DecidableEq

/-- One line of the `parseDBC` loop (lines 431-493). -/
def parseDBCLine (acc : DbcAcc) (line : String) : DbcAcc :=
  let trimmed := jsTrim line
  if ¬ strStartsWith trimmed "SG_ " then acc
  else
    let colonSplit := splitChar ':' trimmed
    if colonSplit.length < 2 then acc
    else
      let preColon := jsTrim (colonSplit.headD "")
      let postColon := jsTrim (joinChar ':' (colonSplit.drop 1))
      let nameParts := splitWs preColon
      if nameParts.length < 2 then acc
      else
        let name := nameParts.getD 1 ""
        if name ∈ acc.seen then acc
        else
          let scale := (scanFor parseScaleAt postColon.data).getD (1, 0)
          let range := (scanFor parseRangeAt postColon.data).getD (0, 0)
          let unit := (scanFor parseQuotedAt postColon.data).getD "-"
          { seen := name :: acc.seen
            metadata := acc.metadata ++
              [{ name := name, unit := unit, min := range.1, max := range.2,
                 avg := 0, stdDev := 0, color := colorAt acc.metadata.length,
                 factor := scale.1, offset := scale.2 }] }

def parseDBC (text : String) : List SignalMetadata :=
  ((splitChar '\n' text).foldl parseDBCLine ⟨[], []⟩).metadata

/-- Invariant of the `parseDBC` loop: emitted names are pairwise distinct
and recorded in `seen`. -/
def dbcInv (acc : DbcAcc) : Prop :=
  (acc.metadata.map (·.name)).Nodup ∧
    ∀ n ∈ acc.metadata.map (·.name), n ∈ acc.seen

theorem parseDBCLine_inv (acc : DbcAcc) (line : String) (h : dbcInv acc) :
    dbcInv (parseDBCLine acc line) := by
  obtain ⟨hnd, hsub⟩ := h
  simp only [parseDBCLine]
  split_ifs with h1 h2 h3 h4
  all_goals try exact ⟨hnd, hsub⟩
  · constructor
    · simp only [List.map_append, List.map_cons, List.map_nil]
      rw [List.nodup_append]
      refine ⟨hnd, List.nodup_singleton _, ?_⟩
      intro n hn hn1
      simp only [List.mem_singleton] at hn1
      exact h4 (hn1 ▸ hsub n hn)
    · intro n hn
      simp only [List.map_append, List.map_cons, List.map_nil,
        List.mem_append, List.mem_singleton] at hn
      rcases hn with hn | rfl
      · exact List.mem_cons_of_mem _ (hsub n hn)
      · exact List.mem_cons_self _ _

theorem foldl_parseDBCLine_inv (lines : List String) :
    ∀ acc : DbcAcc, dbcInv acc → dbcInv (lines.foldl parseDBCLine acc) := by
  induction lines with
  | nil => intro acc h; exact h
  | cons l rest ih =>
      intro acc h
      exact ih _ (parseDBCLine_inv acc l h)

set_option maxHeartbeats 2000000 in
/-- C8: Deduplication by first occurrence — every `parseDBC` result has
pairwise-distinct signal names, and when the same name appears on several
`SG_` lines the emitted descriptor carries the first line's metadata: the
concrete conjunct parses a file with two `SG_ Speed` lines (factor 2 vs 5)
and obtains exactly one descriptor named `Speed` with factor 2, offset 0,
range `[0,100]` and unit `kmh`. -/
theorem C8_dedup_first_occurrence :
    (∀ text : String, ((parseDBC text).map (·.name)).Nodup) ∧
    parseDBC ("SG_ Speed : 0|16@1+ (2,0) [0|100] \"kmh\" V\n" ++
        "SG_ Speed : 8|16@1+ (5,1) [3|50] \"mph\" V") =
      [{ name := "Speed", unit := "kmh", min := 0, max := 100, avg := 0,
         stdDev := 0, color := "#3b82f6", factor := 2, offset := 0 }] := by
  constructor
  · intro text
    exact (foldl_parseDBCLine_inv (splitChar '\n' text) ⟨[], []⟩
      ⟨List.nodup_nil, by intro n hn; simp at hn⟩).1
  · simp +decide [parseDBC, parseDBCLine, splitChar, splitCharAux, splitWs,
      splitWsAux, joinChar, jsTrim, strStartsWith, listStartsWith, scanFor,
      parseScaleAt, parseRangeAt, parseQuotedAt, parseNumLit, numAfterInt,
      digitsVal, colorAt, COLORS]

/-! ## The flexible numeric-field parser (`parseFlexibleFloat`, 390-407) -/

/-- ECMA-262 `parseFloat`: the longest decimal-literal prefix after
leading whitespace, `none` for `NaN`.  (`Infinity` literals and binary
double rounding are outside the rational model.) -/
def jsParseFloat (s : String) : Option ℚ :=
  let l := s.data.dropWhile Char.isWhitespace
  let sgn : ℚ × List Char :=
    match l with
    | '+' :: r => (1, r)
    | '-' :: r => (-1, r)
    | _ => (1, l)
  let intDs := sgn.2.takeWhile Char.isDigit
  let r1 := sgn.2.dropWhile Char.isDigit
  let fr : List Char × List Char :=
    match r1 with
    | '.' :: r => (r.takeWhile Char.isDigit, r.dropWhile Char.isDigit)
    | _ => ([], r1)
  if intDs.isEmpty ∧ fr.1.isEmpty then none
  else
    let mant : ℚ :=
      (digitsVal intDs : ℚ) + (digitsVal fr.1 : ℚ) / 10 ^ fr.1.length
    let ex : ℤ :=
      match fr.2 with
      | c :: r =>
          if c == 'e' ∨ c == 'E' then
            match r with
            | '+' :: rr =>
                if (rr.takeWhile Char.isDigit).isEmpty then 0
                else (digitsVal (rr.takeWhile Char.isDigit) : ℤ)
            | '-' :: rr =>
                if (rr.takeWhile Char.isDigit).isEmpty then 0
                else -(digitsVal (rr.takeWhile Char.isDigit) : ℤ)
            | _ =>
                if (r.takeWhile Char.isDigit).isEmpty then 0
                else (digitsVal (r.takeWhile Char.isDigit) : ℤ)
          else 0
      | [] => 0
    some (sgn.1 * mant * (10 : ℚ) ^ ex)

/-- `val.replace(/\./g, '')`. -/
def removeDots (s : String) : String := ⟨s.data.filter (fun c => !(c == '.'))⟩

/-- `val.replace(/,/g, '')`. -/
def removeCommas (s : String) : String := ⟨s.data.filter (fun c => !(c == ','))⟩

/-- `val.replace(',', '.')` — only the first comma (no global flag). -/
def replaceFirstCommaAux : List Char → List Char
  | [] => []
  | ',' :: r => '.' :: r
  | c :: r => c :: replaceFirstCommaAux r

def replaceFirstComma (s : String) : String := ⟨replaceFirstCommaAux s.data⟩

/-- `parseFlexibleFloat` translated from the source (`!val` is the empty
string in this string-typed model). -/
def parseFlexibleFloat (val : String) (decimalSeparator : String) : ℚ :=
  if val = "" then 0
  else
    let cleanVal := jsTrim val
    if cleanVal = "" then 0
    else if strLower cleanVal = "true" ∨ strLower cleanVal = "on" then 1
    else if strLower cleanVal = "false" ∨ strLower cleanVal = "off" then 0
    else if decimalSeparator = "," then
      (jsParseFloat (replaceFirstComma (removeDots cleanVal))).getD 0
    else
      (jsParseFloat (removeCommas cleanVal)).getD 0

/-- The claim's description of the numeric-field behaviour, restated as a
definition: boolean-like tokens (the trimmed cell) map to 1/0, empty or
unparsable cells to 0, and anything else to the value after stripping
thousands separators per the detected decimal convention. -/
def parseFlexibleFloatSpec (val : String) (decimalSeparator : String) : ℚ :=
  let token := jsTrim val
  if token = "" then 0
  else if strLower token = "true" ∨ strLower token = "on" then 1
  else if strLower token = "false" ∨ strLower token = "off" then 0
  else
    let normalized :=
      if decimalSeparator = "," then replaceFirstComma (removeDots token)
      else removeCommas token
    match jsParseFloat normalized with
    | none => 0
    | some q => q

/-- C10: Flexible numeric field parsing — the source function coincides
with the claim's description on every input, and behaves as claimed on
concrete cells: boolean-like tokens, empty and unparsable cells, and
locale-specific thousands separators. -/
theorem C10_flexible_parsing :
    (∀ val sep : String,
      parseFlexibleFloat val sep = parseFlexibleFloatSpec val sep) ∧
    parseFlexibleFloat " True " "." = 1 ∧
    parseFlexibleFloat "ON" "." = 1 ∧
    parseFlexibleFloat "off" "," = 0 ∧
    parseFlexibleFloat "False" "." = 0 ∧
    parseFlexibleFloat "" "." = 0 ∧
    parseFlexibleFloat "x1" "." = 0 ∧
    parseFlexibleFloat "1.234,56" "," = 123456/100 ∧
    parseFlexibleFloat "1,234.56" "." = 123456/100 := by
  refine ⟨?_, by decide, by decide, by decide, by decide, by decide,
    by decide, ?_, ?_⟩
  · intro val sep
    unfold parseFlexibleFloat parseFlexibleFloatSpec
    by_cases h : val = ""
    · subst h
      rw [if_pos rfl, show jsTrim "" = "" from rfl, if_pos rfl]
    · rw [if_neg h]
      dsimp only
      split_ifs <;>
        first
          | rfl
          | (cases jsParseFloat (replaceFirstComma (removeDots (jsTrim val))) <;>
              rfl)
          | (cases jsParseFloat (removeCommas (jsTrim val)) <;> rfl)
  · simp +decide [parseFlexibleFloat, jsParseFloat, removeDots,
      replaceFirstComma, replaceFirstCommaAux, jsTrim, strLower, digitsVal]
    norm_num
  · simp +decide [parseFlexibleFloat, jsParseFloat, removeCommas, jsTrim,
      strLower, digitsVal]
    norm_num

/-! ## The delimited-text path of `parseFile` (lines 536-613) -/

/-- One output record: the timestamp plus the named columns, as an
insertion-ordered property list. -/
structure DataPoint where
  timestamp : ℚ
  vals : List (String × ℚ)
deriving DecidableEq

/-- `d[name]`, with 0 for a missing key (the statistics pass only reads
keys that are present). -/
def dpGet (pt : DataPoint) (name : String) : ℚ := (recGet pt.vals name).getD 0

structure ParseResult where
  data : List DataPoint
  metadata : List SignalMetadata
deriving DecidableEq

/-- The known time-column names (line 558). -/
def timeNames : List String :=
  ["time", "t", "timestamp", "seconds", "s", "zeit", "globaltime"]

/-- `h.replace(/^"|"$/g, '')` — strip one leading and one trailing
double quote. -/
def stripQuotes (s : String) : String :=
  let l1 := match s.data with
    | '"' :: r => r
    | l => l
  let l2 := match l1.reverse with
    | '"' :: r => r.reverse
    | _ => l1
  ⟨l2⟩

/-- `(line.match(/c/g) || []).length`. -/
def countChar (s : String) (c : Char) : ℕ :=
  (s.data.filter (fun x => x == c)).length

/-- `parseFlexibleFloat` never returns `NaN` (unparsable cells become 0),
so the unit-row guard `isNaN(parseFlexibleFloat(...))` of line 569 is
constantly false; in the rational model `NaN` does not exist at all. -/
def jsIsNaN (_ : ℚ) : Bool := false

/-- The mutable state of the row loop: the `startTime` sentinel (-1
until the first time value is seen) and the accumulated records. -/
structure CsvRowState where
  startTime : ℚ
  rows : List DataPoint
deriving DecidableEq

/-- One iteration of the `dataRows.forEach` (lines 566-590). -/
def csvRowStep (delim : Char) (dsep : String) (headers : List String)
    (timeIdx : Option ℕ) (st : CsvRowState) (ir : ℕ × String) :
    CsvRowState :=
  let vals := (splitChar delim ir.2).map (fun v => stripQuotes (jsTrim v))
  if ir.1 = 0 ∧ jsIsNaN (parseFlexibleFloat
      (vals.getD (timeIdx.getD 0) "") dsep) then st
  else if vals.length ≠ headers.length ∧ vals.length < headers.length then st
  else
    let tv : ℚ × ℚ :=
      match timeIdx with
      | some ti =>
          let t0 := parseFlexibleFloat (vals.getD ti "") dsep
          let s' := if st.startTime = -1 then t0 else st.startTime
          (s', t0 - s')
      | none => (st.startTime, (ir.1 : ℚ) * (1/10))
    let fields := headers.enum.foldl (fun acc p =>
      if timeIdx ≠ some p.1 then
        recSet acc p.2 (parseFlexibleFloat (vals.getD p.1 "") dsep)
      else acc) []
    { startTime := tv.1
      rows := st.rows ++ [{ timestamp := jsToFixed 3 tv.2, vals := fields }] }

/-- `parsedData.sort((a,b) => a.timestamp - b.timestamp)` — a stable sort
by timestamp, modelled as insertion sort. -/
def insertByTs (p : DataPoint) : List DataPoint → List DataPoint
  | [] => [p]
  | q :: rest =>
      if p.timestamp < q.timestamp then p :: q :: rest
      else q :: insertByTs p rest

def sortByTs (l : List DataPoint) : List DataPoint :=
  l.foldl (fun acc p => insertByTs p acc) []

/-- `Math.min(...vals)` / `Math.max(...vals)` on a nonempty list (the
empty case is unreachable behind the `length > 0` guard). -/
def listMin : List ℚ → ℚ
  | [] => 0
  | v :: rest => rest.foldl min v

def listMax : List ℚ → ℚ
  | [] => 0
  | v :: rest => rest.foldl max v

/-- The CSV branch of `parseFile` (lines 536-613). -/
def parseCSVText (o : Oracle) (text : String) : ParseResult :=
  let lines := (splitChar '\n' text).filter (fun l =>
    let t := jsTrim l
    !(t == "") && !(strStartsWith t "//") && !(strStartsWith t "#") &&
      !(strStartsWith t "Begin"))
  if lines.length < 2 then ⟨[], []⟩
  else
    let firstLine := lines.headD ""
    let commaCount := countChar firstLine ','
    let semiCount := countChar firstLine ';'
    let tabCount := countChar firstLine '\t'
    let delimiter : Char := ','
    let delimiter := if semiCount > commaCount then ';' else delimiter
    let delimiter :=
      if tabCount > commaCount ∧ tabCount > semiCount then '\t' else delimiter
    let decimalSeparator : String := if delimiter = ';' then "," else "."
    let headers := (splitChar delimiter (lines.headD "")).map
      (fun h => stripQuotes (jsTrim h))
    let timeIdx : Option ℕ :=
      headers.findIdx? (fun h => timeNames.contains (strLower h))
    let dataRows := (lines.drop 1).take 7999
    let parsed := dataRows.enum.foldl
      (csvRowStep delimiter decimalSeparator headers timeIdx) ⟨-1, []⟩
    let parsedData := sortByTs parsed.rows
    let baseMeta := ((headers.enum.filter
        (fun p => !(some p.1 == timeIdx))).map (·.2)).enum.map (fun p =>
      ({ name := p.2, unit := "-", min := 0, max := 0, avg := 0, stdDev := 0,
         color := colorAt p.1 } : SignalMetadata))
    let metadata := baseMeta.map (fun m =>
      let vs := parsedData.map (fun d => dpGet d m.name)
      if vs.length > 0 then
        let avg := vs.foldl (· + ·) 0 / (vs.length : ℚ)
        let sd := o.sqrt
          ((vs.foldl (fun a b => a + (b - avg) ^ 2) 0) / (vs.length : ℚ))
        { m with min := jsToFixed 2 (listMin vs),
                 max := jsToFixed 2 (listMax vs),
                 avg := jsToFixed 2 avg, stdDev := jsToFixed 2 sd }
      else m)
    ⟨parsedData, metadata⟩

set_option maxHeartbeats 2000000 in
/-- C5: Delimited-text round trip — parsing `time,a,b\n0,1,2\n1,3,4\n`
yields exactly 2 records with timestamps 0 and 1 (the first row's time
subtracted as zero offset), columns `a = [1,3]` and `b = [2,4]`, and the
descriptor for `a` has `min = 1`, `max = 3`, `avg = 2` and population
standard deviation 1; the only analytic fact needed is `sqrt 1 = 1`. -/
theorem C5_csv_round_trip (o : Oracle) (h : o.sqrt 1 = 1) :
    (parseCSVText o "time,a,b\n0,1,2\n1,3,4\n").data.length = 2 ∧
    (parseCSVText o "time,a,b\n0,1,2\n1,3,4\n").data.map (·.timestamp) =
      [0, 1] ∧
    (parseCSVText o "time,a,b\n0,1,2\n1,3,4\n").data.map
      (fun d => dpGet d "a") = [1, 3] ∧
    (parseCSVText o "time,a,b\n0,1,2\n1,3,4\n").data.map
      (fun d => dpGet d "b") = [2, 4] ∧
    (parseCSVText o "time,a,b\n0,1,2\n1,3,4\n").metadata.map (·.name) =
      ["a", "b"] ∧
    ((parseCSVText o "time,a,b\n0,1,2\n1,3,4\n").metadata.headD
        ⟨"", "", 0, 0, 0, 0, "", 1, 0⟩).min = 1 ∧
    ((parseCSVText o "time,a,b\n0,1,2\n1,3,4\n").metadata.headD
        ⟨"", "", 0, 0, 0, 0, "", 1, 0⟩).max = 3 ∧
    ((parseCSVText o "time,a,b\n0,1,2\n1,3,4\n").metadata.headD
        ⟨"", "", 0, 0, 0, 0, "", 1, 0⟩).avg = 2 ∧
    ((parseCSVText o "time,a,b\n0,1,2\n1,3,4\n").metadata.headD
        ⟨"", "", 0, 0, 0, 0, "", 1, 0⟩).stdDev = 1 := by
  norm_num +decide [parseCSVText, csvRowStep, splitChar, splitCharAux,
    jsTrim, strStartsWith, listStartsWith, stripQuotes, countChar, strLower,
    timeNames, parseFlexibleFloat, jsParseFloat, removeCommas, digitsVal,
    jsIsNaN, sortByTs, insertByTs, listMin, listMax, dpGet, recGet, recSet,
    colorAt, COLORS, jsToFixed, jsRound, List.enum, List.enumFrom, h,
    show ('0'.toNat = 48) from rfl, show ('1'.toNat = 49) from rfl,
    show ('2'.toNat = 50) from rfl, show ('3'.toNat = 51) from rfl,
    show ('4'.toNat = 52) from rfl]

/-- Witness for C5 at the concrete oracle (whose `sqrt` is the identity,
so `sqrt 1 = 1`). -/
theorem C5_csv_round_trip_witness :
    oracle0.sqrt 1 = 1 ∧
    ((parseCSVText oracle0 "time,a,b\n0,1,2\n1,3,4\n").data.length = 2 ∧
      (parseCSVText oracle0 "time,a,b\n0,1,2\n1,3,4\n").data.map
        (·.timestamp) = [0, 1]) :=
  ⟨rfl, (C5_csv_round_trip oracle0 rfl).1,
    (C5_csv_round_trip oracle0 rfl).2.1⟩

end DataSim
